import Mathlib

/-!
Verification of the Monte Carlo risk-analysis engine against its
natural-language specification.

The embedding models the engine's modules, translated from source:
statistics (descriptive statistics, percentiles, histogram binning),
sensitivity (standardised regression coefficients, Spearman rank
correlation), distributions (seedable PRNG, triangular and PERT
samplers) and simulator (the iteration orchestrator with cancellation).
JavaScript numbers are modelled as real numbers; 32-bit integer
operations are modelled on naturals modulo 2^32.
-/

noncomputable section

namespace Statistics

/-- Percentiles record of `OutputStatistics` (statistics.ts). -/
structure KeyPercentiles where
  p1 : ℝ
  p5 : ℝ
  p10 : ℝ
  p25 : ℝ
  p50 : ℝ
  p75 : ℝ
  p90 : ℝ
  p95 : ℝ
  p99 : ℝ

/-- Full statistics for one output (types.ts, `OutputStatistics`). -/
structure OutputStatistics where
  minimum : ℝ
  maximum : ℝ
  mean : ℝ
  median : ℝ
  mode : ℝ
  stdDev : ℝ
  variance : ℝ
  skewness : ℝ
  kurtosis : ℝ
  percentiles : KeyPercentiles
  confidenceInterval : ℝ × ℝ
  probNegative : ℝ
  count : ℕ

/-- Ascending stable sort used for order statistics; models the
JavaScript `[...values].sort((a, b) => a - b)` (stable, ascending). -/
def sortAsc (values : List ℝ) : List ℝ :=
  List.insertionSort (· ≤ ·) values

/-- Linear interpolation percentile on a sorted array (statistics.ts
`percentile`).  Out-of-range indices return the JavaScript default
modelled as 0. -/
def percentile (sorted : List ℝ) (p : ℝ) : ℝ :=
  let n := sorted.length
  if n = 0 then 0
  else if n = 1 then sorted.getD 0 0
  else
    let idx := p * ((n : ℝ) - 1)
    let lo := ⌊idx⌋
    let hi := ⌈idx⌉
    let frac := idx - (lo : ℝ)
    sorted.getD lo.toNat 0 * (1 - frac) + sorted.getD hi.toNat 0 * frac

/-- Mode approximation (statistics.ts `computeMode`): bin the sorted
data and return the midpoint of the most populous bin.  The bin
occupancy increment loop is modelled by counting, per bin, the values
that fall in it. -/
def computeMode (sorted : List ℝ) : ℝ :=
  let n := sorted.length
  if n ≤ 2 then sorted.getD 0 0
  else
    let first := sorted.getD 0 0
    let range := sorted.getD (n - 1) 0 - first
    if range = 0 then first
    else
      let numBins : ℕ := (max 10 (min 200 ⌈(1 : ℝ) + 3.322 * Real.logb 10 (n : ℝ)⌉)).toNat
      let binWidth := range / (numBins : ℝ)
      let binOf : ℝ → ℕ := fun v =>
        let b := (⌊(v - first) / binWidth⌋).toNat
        if numBins ≤ b then numBins - 1 else b
      let bins : List ℕ := (List.range numBins).map (fun i => sorted.countP (fun v => binOf v = i))
      let best := (List.range numBins).foldl
        (fun acc i => if bins.getD i 0 > acc.2 then (i, bins.getD i 0) else acc) (0, 0)
      first + ((best.1 : ℝ) + 0.5) * binWidth

/-- Zero-filled statistics for empty data (statistics.ts `emptyStats`). -/
def emptyStats : OutputStatistics where
  minimum := 0
  maximum := 0
  mean := 0
  median := 0
  mode := 0
  stdDev := 0
  variance := 0
  skewness := 0
  kurtosis := 0
  percentiles := ⟨0, 0, 0, 0, 0, 0, 0, 0, 0⟩
  confidenceInterval := (0, 0)
  probNegative := 0
  count := 0

/-- Full statistics computation (statistics.ts `computeStatistics`).
The accumulation loops over `values` are modelled as sums over
`Finset.range n`; `d2 * diff` and `d2 * d2` are written as third and
fourth powers, which they equal exactly over the reals. -/
def computeStatistics (values : List ℝ) (confidenceLevel : ℝ) : OutputStatistics :=
  let n := values.length
  if n = 0 then emptyStats
  else
    let sorted := sortAsc values
    let minimum := sorted.getD 0 0
    let maximum := sorted.getD (n - 1) 0
    let mean := values.sum / (n : ℝ)
    let median :=
      if n % 2 = 0 then (sorted.getD (n / 2 - 1) 0 + sorted.getD (n / 2) 0) / 2
      else sorted.getD (n / 2) 0
    let sumSqDiff := ∑ i ∈ Finset.range n, (values.getD i 0 - mean) ^ 2
    let sumCubDiff := ∑ i ∈ Finset.range n, (values.getD i 0 - mean) ^ 3
    let sumQuadDiff := ∑ i ∈ Finset.range n, (values.getD i 0 - mean) ^ 4
    let variance := sumSqDiff / (n : ℝ)
    let stdDev := Real.sqrt variance
    let skewness := if 0 < stdDev then sumCubDiff / (n : ℝ) / (stdDev * stdDev * stdDev) else 0
    let kurtosis :=
      if 0 < stdDev then sumQuadDiff / (n : ℝ) / (variance * variance) - 3 else 0
    let mode := computeMode sorted
    let alpha := (1 - confidenceLevel) / 2
    { minimum := minimum
      maximum := maximum
      mean := mean
      median := median
      mode := mode
      stdDev := stdDev
      variance := variance
      skewness := skewness
      kurtosis := kurtosis
      percentiles :=
        { p1 := percentile sorted 0.01
          p5 := percentile sorted 0.05
          p10 := percentile sorted 0.10
          p25 := percentile sorted 0.25
          p50 := percentile sorted 0.50
          p75 := percentile sorted 0.75
          p90 := percentile sorted 0.90
          p95 := percentile sorted 0.95
          p99 := percentile sorted 0.99 }
      confidenceInterval := (percentile sorted alpha, percentile sorted (1 - alpha))
      probNegative := (values.countP (fun v => v < 0) : ℝ) / (n : ℝ)
      count := n }

/-- Histogram bin record (statistics.ts `HistogramBin`). -/
structure HistogramBin where
  x0 : ℝ
  x1 : ℝ
  count : ℕ
  frequency : ℝ
  density : ℝ

/-- Histogram computation (statistics.ts `computeHistogram`).  The bin
occupancy increments and the frequency/density fill-in loops are fused
into the bin construction, counting per bin the values falling in it. -/
def computeHistogram (values : List ℝ) (numBins : Option ℕ) : List HistogramBin :=
  let n := values.length
  if n = 0 then []
  else
    let sorted := sortAsc values
    let lo := sorted.getD 0 0
    let hi := sorted.getD (n - 1) 0
    let range := hi - lo
    if range = 0 then [⟨lo - 0.5, hi + 0.5, n, 1, 1⟩]
    else
      let bins : ℕ :=
        numBins.getD (max 20 (min 100 ⌈(1 : ℝ) + 3.322 * Real.logb 10 (n : ℝ)⌉)).toNat
      let binWidth := range / (bins : ℝ)
      let idxOf : ℝ → ℕ := fun v =>
        let b := (⌊(v - lo) / binWidth⌋).toNat
        if bins ≤ b then bins - 1 else b
      (List.range bins).map (fun i =>
        let count := sorted.countP (fun v => idxOf v = i)
        { x0 := lo + (i : ℝ) * binWidth
          x1 := lo + ((i : ℝ) + 1) * binWidth
          count := count
          frequency := (count : ℝ) / (n : ℝ)
          density := (count : ℝ) / (n : ℝ) / binWidth })

/-- Spec-side definition of the percentile (§4.3): linear interpolation
between the order statistics adjacent to fractional rank `p·(n−1)`
(0-indexed). -/
def rankInterp (s : List ℝ) (p : ℝ) : ℝ :=
  let rho := p * ((s.length : ℝ) - 1)
  (1 - (rho - (⌊rho⌋ : ℝ))) * s.getD (⌊rho⌋).toNat 0 +
    (rho - (⌊rho⌋ : ℝ)) * s.getD (⌈rho⌉).toNat 0

end Statistics

namespace Sensitivity

/-- Sensitivity result record (types.ts `SensitivityResult`). -/
structure SensitivityResult where
  inputId : String
  inputName : String
  coefficient : ℝ
  rankCorrelation : ℝ

/-- Arithmetic mean (sensitivity.ts `mean`); the accumulation loop is a
sum over `Finset.range`. -/
def mean (arr : List ℝ) : ℝ :=
  (∑ i ∈ Finset.range arr.length, arr.getD i 0) / (arr.length : ℝ)

/-- Population standard deviation about a given mean (sensitivity.ts
`stdDev`). -/
def stdDev (arr : List ℝ) (m : ℝ) : ℝ :=
  Real.sqrt ((∑ i ∈ Finset.range arr.length, (arr.getD i 0 - m) ^ 2) / (arr.length : ℝ))

/-- Standardised regression coefficient (sensitivity.ts
`standardisedRegressionCoefficient`). -/
def standardisedRegressionCoefficient (x y : List ℝ) : ℝ :=
  let n := x.length
  let mx := mean x
  let my := mean y
  let sx := stdDev x mx
  let sy := stdDev y my
  if sx = 0 ∨ sy = 0 then 0
  else
    let cov := (∑ i ∈ Finset.range n, (x.getD i 0 - mx) * (y.getD i 0 - my)) / (n : ℝ)
    cov / (sx * sy)

/-- Stable ascending sort of index/value pairs by value, modelling the
JavaScript `indexed.sort((a, b) => a.val - b.val)` in `ranks`. -/
def sortByVal (l : List (ℕ × ℝ)) : List (ℕ × ℝ) :=
  List.insertionSort (fun p q => p.2 ≤ q.2) l

/-- Walk over the value-sorted pairs grouping runs of equal values;
members of the group occupying sorted positions `i..j` all receive the
average rank `(i+j)/2 + 1` (sensitivity.ts `ranks`, inner while loop).
The fuel argument, instantiated with the list length, bounds the number
of groups; each group consumes at least one element, so the fuel never
runs out on the actual call. -/
def ranksGo : ℕ → List (ℕ × ℝ) → ℕ → List ℝ → List ℝ
  | 0, _, _, acc => acc
  | _ + 1, [], _, acc => acc
  | fuel + 1, p :: rest, i, acc =>
      let grp := p :: rest.takeWhile (fun q => q.2 = p.2)
      let j := i + grp.length - 1
      let avg : ℝ := ((i : ℝ) + (j : ℝ)) / 2 + 1
      ranksGo fuel (rest.dropWhile (fun q => q.2 = p.2)) (i + grp.length)
        (grp.foldl (fun a q => a.set q.1 avg) acc)

/-- Ranks, 1-based with tied values receiving the average rank of their
tie group (sensitivity.ts `ranks`). -/
def ranks (arr : List ℝ) : List ℝ :=
  ranksGo arr.length (sortByVal arr.enum) 0 (List.replicate arr.length 0)

/-- Spearman rank correlation (sensitivity.ts `spearmanRankCorrelation`). -/
def spearmanRankCorrelation (x y : List ℝ) : ℝ :=
  standardisedRegressionCoefficient (ranks x) (ranks y)

/-- Column extraction in `computeSensitivity`: `x[i] =
inputSamples[i]?.[j] ?? 0` for `i < n`. -/
def column (inputSamples : List (List ℝ)) (n j : ℕ) : List ℝ :=
  (List.range n).map (fun i => (inputSamples.getD i []).getD j 0)

/-- Per-input results of `computeSensitivity` before sorting, in input
order (the `results` array of sensitivity.ts). -/
def sensUnsorted (inputSamples : List (List ℝ)) (outputValues : List ℝ)
    (inputNames inputIds : List String) : List SensitivityResult :=
  (List.range inputNames.length).map (fun j =>
    let x := column inputSamples outputValues.length j
    { inputId := inputIds.getD j ""
      inputName := inputNames.getD j ""
      coefficient := standardisedRegressionCoefficient x outputValues
      rankCorrelation := spearmanRankCorrelation x outputValues })

/-- Descending-absolute-coefficient order used by the final sort of
`computeSensitivity`: `a` may precede `b` when `|b.coefficient| ≤
|a.coefficient|`. -/
def sensLE (a b : SensitivityResult) : Prop :=
  |b.coefficient| ≤ |a.coefficient|

instance : DecidableRel sensLE := fun _ _ => Real.decidableLE _ _

instance : IsTotal SensitivityResult sensLE :=
  ⟨fun a b => (le_total |b.coefficient| |a.coefficient|).imp id id⟩

instance : IsTrans SensitivityResult sensLE :=
  ⟨fun _ _ _ hab hbc => le_trans hbc hab⟩

/-- Sensitivity computation for one output (sensitivity.ts
`computeSensitivity`): empty whenever fewer than 3 iterations or no
inputs, else the per-input results sorted stably by descending absolute
coefficient (the ES2019 `Array.prototype.sort` is stable, modelled by
insertion sort). -/
def computeSensitivity (inputSamples : List (List ℝ)) (outputValues : List ℝ)
    (inputNames inputIds : List String) : List SensitivityResult :=
  let n := outputValues.length
  let numInputs := inputNames.length
  if n < 3 ∨ numInputs = 0 then []
  else
    List.insertionSort sensLE (sensUnsorted inputSamples outputValues inputNames inputIds)

/-- Spec-side population variance (§4.4). -/
def popVar (l : List ℝ) : ℝ :=
  (∑ i ∈ Finset.range l.length, (l.getD i 0 - mean l) ^ 2) / (l.length : ℝ)

/-- Spec-side population covariance (§4.4). -/
def popCov (x y : List ℝ) : ℝ :=
  (∑ i ∈ Finset.range x.length, (x.getD i 0 - mean x) * (y.getD i 0 - mean y)) / (x.length : ℝ)

/-- Spec-side Pearson correlation coefficient (§4.4): population
covariance divided by the product of the population standard
deviations, and 0 when either series has zero variance. -/
def pearsonSpec (x y : List ℝ) : ℝ :=
  if popVar x = 0 ∨ popVar y = 0 then 0
  else popCov x y / (Real.sqrt (popVar x) * Real.sqrt (popVar y))

end Sensitivity

namespace Distributions

/-- The four 32-bit state words of the xoshiro128** generator
(distributions.ts, module variable `_s`).  Words are naturals kept
below 2^32. -/
structure RngState where
  s0 : ℕ
  s1 : ℕ
  s2 : ℕ
  s3 : ℕ

/-- SplitMix32 avalanche mixing of one state word (body of the loop in
distributions.ts `seedRng`); `Math.imul` is multiplication modulo
2^32 on the 32-bit pattern. -/
def splitmix32 (s : ℕ) : ℕ :=
  let t1 := s ^^^ (s >>> 16)
  let t2 := t1 * 0x21f0aaad % 2 ^ 32
  let t3 := t2 ^^^ (t2 >>> 15)
  let t4 := t3 * 0x735a2d97 % 2 ^ 32
  t4 ^^^ (t4 >>> 15)

/-- Seed expansion (distributions.ts `seedRng`): SplitMix32 expands a
32-bit seed into the four state words, overwriting the whole generator
state. -/
def seedRng (seed : ℕ) : RngState :=
  let c0 := (seed % 2 ^ 32 + 0x9e3779b9) % 2 ^ 32
  let c1 := (c0 + 0x9e3779b9) % 2 ^ 32
  let c2 := (c1 + 0x9e3779b9) % 2 ^ 32
  let c3 := (c2 + 0x9e3779b9) % 2 ^ 32
  ⟨splitmix32 c0, splitmix32 c1, splitmix32 c2, splitmix32 c3⟩

/-- Rotate a 32-bit pattern left by `k` (the `(r << 9) | (r >>> 23)`
and `(x << 11) | (x >>> 21)` idioms of distributions.ts). -/
def rotl32 (x k : ℕ) : ℕ :=
  (x <<< k) % 2 ^ 32 ||| x >>> (32 - k)

/-- One xoshiro128** step (distributions.ts `xoshiro`): returns a
uniform draw in `[0, 1)` and the successor state.  All 32-bit signed or
unsigned JavaScript bit operations coincide modulo 2^32 on the bit
pattern, so the word arithmetic is modelled modulo 2^32. -/
def xoshiro (st : RngState) : ℝ × RngState :=
  let r := st.s1 * 5 % 2 ^ 32 * 7 % 2 ^ 32
  let result := rotl32 r 9 * 9 % 2 ^ 32
  let t := (st.s1 <<< 9) % 2 ^ 32
  let a2 := st.s2 ^^^ st.s0
  let a3 := st.s3 ^^^ st.s1
  let a1 := st.s1 ^^^ a2
  let a0 := st.s0 ^^^ a3
  let b2 := a2 ^^^ t
  let b3 := rotl32 a3 11
  ((result : ℝ) / 4294967296, ⟨a0, a1, b2, b3⟩)

/-- Mutable sampler state of distributions.ts: the generator words
`_s`, the mode flag `useSeededRng` and the Box–Muller spare buffer
`_hasSpare` / `_spare`. -/
structure SamplerState where
  s : RngState
  useSeededRng : Bool
  hasSpare : Bool
  spare : ℝ

/-- Inverse-CDF triangular sampler (distributions.ts
`sampleTriangular`) applied to one uniform draw `u`.  Division by zero
is total (0 in the embedding, NaN in JavaScript); either way the branch
condition `u < fc` is false for `0 ≤ u` when the range is zero, so both
semantics take the same branch. -/
def sampleTriangular (u lo mode hi : ℝ) : ℝ :=
  let fc := (mode - lo) / (hi - lo)
  if u < fc then lo + Real.sqrt (u * (hi - lo) * (mode - lo))
  else hi - Real.sqrt ((1 - u) * (hi - lo) * (hi - mode))

/-- PERT sampler (distributions.ts `samplePERT`).  The Beta sampler it
delegates to (`sampleBeta`, two Marsaglia–Tsang Gamma draws with an
unbounded rejection loop) is taken as a parameter `beta`, a
deterministic state transformer; the zero-range guard returns before it
is ever consulted. -/
def samplePERT (beta : ℝ → ℝ → SamplerState → ℝ × SamplerState)
    (st : SamplerState) (lo mode hi : ℝ) : ℝ × SamplerState :=
  let range := hi - lo
  if range ≤ 0 then (mode, st)
  else
    let mu := (lo + 4 * mode + hi) / 6
    let alpha1 := (mu - lo) * (2 * mode - lo - hi) / ((mode - mu) * (hi - lo))
    let ab :=
      if 0 < alpha1 then (alpha1, alpha1 * (hi - mu) / (mu - lo))
      else (1 + 4 * (mu - lo) / range, 1 + 4 * (hi - mu) / range)
    let a := max ab.1 0.5
    let b := max ab.2 0.5
    let bs := beta a b st
    (lo + bs.1 * range, bs.2)

end Distributions

namespace Simulator

open Distributions Statistics Sensitivity

/-- Registered distribution input as the orchestrator sees it (id and
name; its sampling behaviour enters through the `sample` parameter of
`runSimulation`). -/
structure DistInput where
  id : String
  name : String

/-- Registered simulation output (types.ts `SimulationOutput`). -/
structure SimOutput where
  id : String
  name : String

/-- Simulation configuration (types.ts `SimulationConfig`). -/
structure SimConfig where
  iterations : ℕ
  seed : ℕ
  confidenceLevel : ℝ
  probabilityThreshold : ℝ

/-- Per-output results (types.ts `OutputResults`). -/
structure OutputResults where
  outputId : String
  name : String
  values : List ℝ
  stats : OutputStatistics

/-- Overall simulation results (types.ts `SimulationResults`); the
sensitivity `Map` is modelled as an association list in output order,
and the final progress status is recorded in `finalStatus`.  Wall-clock
elapsed time is outside the embedding. -/
structure SimResults where
  config : SimConfig
  outputs : List OutputResults
  sensitivity : List (String × List SensitivityResult)
  inputSamples : List (List ℝ)
  finalStatus : String

/-- PRNG setup of `runSimulation` (simulator.ts): seeded mode iff
`config.seed > 0`, re-seeding the whole generator, followed by
`resetSamplerState()` clearing the Box–Muller spare. -/
def simSetup (seed : ℕ) (st : SamplerState) : SamplerState :=
  let st1 :=
    if 0 < seed then { st with s := seedRng seed, useSeededRng := true }
    else { st with useSeededRng := false }
  { st1 with hasSpare := false, spare := 0 }

/-- Cancellation model: `cancelAt = some k` means `cancelSimulation()`
was invoked after iteration `k` (0-indexed count of completed
iterations) and before the next one began, so the monotone `_cancelled`
flag reads true at the top of every iteration `i ≥ k`. -/
def checkCancel (cancelAt : Option ℕ) (i : ℕ) : Bool :=
  match cancelAt with
  | none => false
  | some k => decide (k ≤ i)

/-- Value of the `_cancelled` flag when the final progress callback
fires, after the loop is done. -/
def finalCancelled (cancelAt : Option ℕ) (iterations : ℕ) : Bool :=
  match cancelAt with
  | none => false
  | some k => decide (k ≤ iterations)

/-- Loop accumulator: sampler state, the sample matrix and the
per-output value series. -/
structure RunAcc where
  st : SamplerState
  inputSamples : List (List ℝ)
  outputValues : List (List ℝ)

/-- One iteration of the simulation loop (simulator.ts): sample every
input in registration order threading the sampler state, append the row
to the sample matrix, hand the row to the external evaluator, and
append each returned output value to its series (a missing value
coerces to 0). -/
def doIter (sample : ℕ → SamplerState → ℝ × SamplerState) (eval : List ℝ → List ℝ)
    (numInputs numOutputs : ℕ) (acc : RunAcc) : RunAcc :=
  let sampled := (List.range numInputs).foldl
    (fun (p : List ℝ × SamplerState) j =>
      let r := sample j p.2
      (p.1 ++ [r.1], r.2)) ([], acc.st)
  let row := sampled.1
  let outRow := eval row
  { st := sampled.2
    inputSamples := acc.inputSamples ++ [row]
    outputValues :=
      List.zipWith (fun l k => l ++ [outRow.getD k 0]) acc.outputValues (List.range numOutputs) }

/-- The iteration loop of `runSimulation`: before each iteration the
cancellation flag is checked and, if set, the loop breaks with the
partial accumulator. -/
def simLoop (sample : ℕ → SamplerState → ℝ × SamplerState) (eval : List ℝ → List ℝ)
    (numInputs numOutputs : ℕ) (cancelAt : Option ℕ) :
    ℕ → ℕ → RunAcc → RunAcc
  | 0, _, acc => acc
  | remaining + 1, iter, acc =>
      if checkCancel cancelAt iter then acc
      else simLoop sample eval numInputs numOutputs cancelAt remaining (iter + 1)
        (doIter sample eval numInputs numOutputs acc)

/-- The orchestrator (simulator.ts `runSimulation`).  Excel plumbing
(cell writes, recalculation, formula backup/restore) is outside the
engine; the external evaluator is the deterministic function `eval`
from an input row to an output row and per-input sampling is the
deterministic state transformer `sample`.  Thrown errors are modelled
as `Except.error` of the message. -/
def runSimulation (sample : ℕ → SamplerState → ℝ × SamplerState)
    (eval : List ℝ → List ℝ) (inputs : List DistInput) (outputs : List SimOutput)
    (config : SimConfig) (cancelAt : Option ℕ) (st0 : SamplerState) :
    Except String SimResults :=
  if inputs.length = 0 then
    .error "No distribution inputs found. Use MC.Normal(), MC.Triangular(), etc. in cells first."
  else if outputs.length = 0 then
    .error "No output cells found. Use MC.Output() to mark output cells first."
  else
    let st := simSetup config.seed st0
    let acc := simLoop sample eval inputs.length outputs.length cancelAt
      config.iterations 0 ⟨st, [], outputs.map (fun _ => [])⟩
    let cancelled := finalCancelled cancelAt config.iterations
    let outputResults := List.zipWith
      (fun (out : SimOutput) idx =>
        { outputId := out.id
          name := out.name
          values := acc.outputValues.getD idx []
          stats := computeStatistics (acc.outputValues.getD idx []) config.confidenceLevel
          : OutputResults })
      outputs (List.range outputs.length)
    let inputNames := inputs.map (fun i => i.name)
    let inputIds := inputs.map (fun i => i.id)
    let sens := List.zipWith
      (fun (out : SimOutput) idx =>
        (out.id, computeSensitivity acc.inputSamples (acc.outputValues.getD idx [])
          inputNames inputIds))
      outputs (List.range outputs.length)
    .ok
      { config := config
        outputs := outputResults
        sensitivity := sens
        inputSamples := acc.inputSamples
        finalStatus := if cancelled then "cancelled" else "completed" }

/-- Number of iterations the loop body runs when started at iteration
`iter` with `r` iterations remaining. -/
def executedIters (cancelAt : Option ℕ) (r iter : ℕ) : ℕ :=
  match cancelAt with
  | none => r
  | some k => min r (k - iter)

/-- Whether the run returned results rather than an error. -/
def runOk (e : Except String SimResults) : Bool :=
  match e with
  | .ok _ => true
  | .error _ => false

/-- Sample-matrix row count of a run result, 0 on error. -/
def okSampleCount (e : Except String SimResults) : ℕ :=
  match e with
  | .ok r => r.inputSamples.length
  | .error _ => 0

/-- Lengths of the per-output value series of a run result. -/
def okValueCounts (e : Except String SimResults) : List ℕ :=
  match e with
  | .ok r => r.outputs.map (fun o => o.values.length)
  | .error _ => []

/-- Final reported status of a run result (empty on error). -/
def okStatus (e : Except String SimResults) : String :=
  match e with
  | .ok r => r.finalStatus
  | .error _ => ""

end Simulator

section Theorems

open Statistics Sensitivity Distributions Simulator

/-- Helper: evaluate the floor of 3/2 over the reals. -/
lemma floor_three_halves : ⌊(3 : ℝ) / 2⌋ = 1 := by
  rw [Int.floor_eq_iff] ; norm_num

/-- Helper: evaluate the ceiling of 3/2 over the reals. -/
lemma ceil_three_halves : ⌈(3 : ℝ) / 2⌉ = 2 := by
  rw [Int.ceil_eq_iff] ; norm_num

/-- C4: for an ascending-sorted array, `percentile` returns the linear
interpolation between the order statistics adjacent to the fractional
rank `p·(n−1)` (0-indexed), clamped for `n ≤ 1`; in particular
`percentile [1,2,3,4] 0.5 = 2.5`, `percentile [1,2,3] 0.5 = 2` and
`percentile [5] 0.5 = 5`. -/
theorem percentile_rank_interpolation (s : List ℝ) (p v : ℝ) :
    (2 ≤ s.length → percentile s p = rankInterp s p) ∧
    percentile [v] p = v ∧
    percentile [1, 2, 3, 4] 0.5 = 2.5 ∧
    percentile [1, 2, 3] 0.5 = 2 ∧
    percentile [5] 0.5 = 5 := by
  refine ⟨fun h => ?_, by simp [percentile], ?_, ?_, by simp [percentile]⟩
  · have h0 : s.length ≠ 0 := by omega
    have h1 : s.length ≠ 1 := by omega
    simp only [percentile, rankInterp, if_neg h0, if_neg h1]
    ring
  · simp only [percentile, List.length_cons, List.length_nil]
    norm_num [floor_three_halves, ceil_three_halves, List.getD]
    simp only [show Int.toNat 2 = 2 from rfl]
    norm_num
  · have hf : ⌊(1 : ℝ)⌋ = 1 := by norm_num
    have hc : ⌈(1 : ℝ)⌉ = 1 := by norm_num
    simp only [percentile, List.length_cons, List.length_nil]
    norm_num [hf, hc, List.getD]

/-- Witness for C4 at a concrete sorted array, discharging the length
hypothesis of the interpolation clause. -/
theorem percentile_rank_interpolation_witness :
    percentile [1, 2, 3, 4] 0.25 = rankInterp [1, 2, 3, 4] 0.25 :=
  (percentile_rank_interpolation [1, 2, 3, 4] 0.25 0).1 (by simp)

/-- C9: with a zero-width range (`min = mode = max = c`), the
triangular sampler returns `c` for every uniform draw `u ∈ [0, 1)` (the
zero-denominator branch condition is false, and the square-root
argument collapses to zero), and the PERT sampler's zero-range guard
returns `c` immediately, leaving the sampler state untouched and never
consulting the Beta/Gamma rejection sampler. -/
theorem degenerate_triangular_pert (u c : ℝ)
    (beta : ℝ → ℝ → SamplerState → ℝ × SamplerState) (st : SamplerState)
    (hu : 0 ≤ u) :
    sampleTriangular u c c c = c ∧ samplePERT beta st c c c = (c, st) := by
  constructor
  · have hfc : (c - c) / (c - c) = 0 := by simp
    have hlt : ¬ u < (c - c) / (c - c) := by rw [hfc]; exact not_lt.mpr hu
    simp only [sampleTriangular, if_neg hlt]
    simp
  · simp [samplePERT]

/-- Witness for C9 at a concrete draw, value, Beta sampler and state. -/
theorem degenerate_triangular_pert_witness :
    sampleTriangular 0 5 5 5 = 5 ∧
      samplePERT (fun _ _ st => (0, st)) ⟨⟨0, 0, 0, 0⟩, false, false, 0⟩ 5 5 5 =
        (5, ⟨⟨0, 0, 0, 0⟩, false, false, 0⟩) :=
  degenerate_triangular_pert 0 5 (fun _ _ st => (0, st))
    ⟨⟨0, 0, 0, 0⟩, false, false, 0⟩ le_rfl

/-- C5: `computeStatistics` returns the all-zero `emptyStats` structure
(count 0) on the empty array, and on a one-element array `[v]` every
location statistic (mean, median, mode, minimum, maximum, every key
percentile) equals `v` while every spread statistic (stdDev, variance,
skewness, excess kurtosis) equals 0. -/
theorem computeStatistics_empty_and_singleton (cl v : ℝ) :
    (computeStatistics [] cl = emptyStats ∧ emptyStats.count = 0 ∧
      emptyStats.minimum = 0 ∧ emptyStats.maximum = 0 ∧ emptyStats.mean = 0 ∧
      emptyStats.median = 0 ∧ emptyStats.mode = 0 ∧ emptyStats.stdDev = 0 ∧
      emptyStats.variance = 0 ∧ emptyStats.skewness = 0 ∧ emptyStats.kurtosis = 0 ∧
      emptyStats.percentiles = ⟨0, 0, 0, 0, 0, 0, 0, 0, 0⟩ ∧ emptyStats.probNegative = 0) ∧
    ((computeStatistics [v] cl).mean = v ∧ (computeStatistics [v] cl).median = v ∧
      (computeStatistics [v] cl).mode = v ∧ (computeStatistics [v] cl).minimum = v ∧
      (computeStatistics [v] cl).maximum = v ∧
      (computeStatistics [v] cl).percentiles = ⟨v, v, v, v, v, v, v, v, v⟩ ∧
      (computeStatistics [v] cl).stdDev = 0 ∧ (computeStatistics [v] cl).variance = 0 ∧
      (computeStatistics [v] cl).skewness = 0 ∧ (computeStatistics [v] cl).kurtosis = 0 ∧
      (computeStatistics [v] cl).count = 1) := by
  have hsort : sortAsc [v] = [v] := by
    simp [sortAsc, List.insertionSort]
  have hpct : ∀ p : ℝ, percentile [v] p = v := by
    intro p; simp [percentile]
  have hmode : computeMode [v] = v := by
    simp [computeMode]
  have hone : computeStatistics [v] cl =
      { minimum := v, maximum := v, mean := v, median := v, mode := v,
        stdDev := 0, variance := 0, skewness := 0, kurtosis := 0,
        percentiles := ⟨v, v, v, v, v, v, v, v, v⟩,
        confidenceInterval := (v, v),
        probNegative := ([v].countP (fun w => w < 0) : ℝ), count := 1 } := by
    simp only [computeStatistics, List.length_cons, List.length_nil]
    norm_num [hsort, hpct, hmode, List.getD]
  constructor
  · refine ⟨?_, by simp [emptyStats], by simp [emptyStats], by simp [emptyStats],
      by simp [emptyStats], by simp [emptyStats], by simp [emptyStats],
      by simp [emptyStats], by simp [emptyStats], by simp [emptyStats],
      by simp [emptyStats], by simp [emptyStats], by simp [emptyStats]⟩
    simp [computeStatistics]
  · rw [hone]
    norm_num

/-- Helper: with no explicit bin-count argument and a non-degenerate
range, `computeHistogram` produces `clamp(20, 100, ceil(1 +
3.322·log10 n))` bins. -/
lemma computeHistogram_length_default (values : List ℝ)
    (h1 : values.length ≠ 0)
    (hr : (sortAsc values).getD (values.length - 1) 0 - (sortAsc values).getD 0 0 ≠ 0) :
    (computeHistogram values none).length =
      (max 20 (min 100 ⌈(1 : ℝ) + 3.322 * Real.logb 10 (values.length : ℝ)⌉)).toNat := by
  simp only [computeHistogram]
  rw [if_neg h1, if_neg hr]
  simp

/-- C8 (amended): with no explicit bin-count argument, a non-empty
array and a non-zero data range, `computeHistogram` uses the bin count
`clamp(20, 100, ceil(1 + 3.322·log10 n))` — a different clamp from the
`clamp(10, 200, …)` used by the mode estimate. -/
theorem computeHistogram_default_bin_count (values : List ℝ)
    (h1 : values.length ≠ 0)
    (hr : (sortAsc values).getD (values.length - 1) 0 - (sortAsc values).getD 0 0 ≠ 0) :
    (computeHistogram values none).length =
      (max 20 (min 100 ⌈(1 : ℝ) + 3.322 * Real.logb 10 (values.length : ℝ)⌉)).toNat :=
  computeHistogram_length_default values h1 hr

/-- Witness for C8's amended bin-count rule on a concrete two-element
array. -/
theorem computeHistogram_default_bin_count_witness :
    (computeHistogram [0, 1] none).length =
      (max 20 (min 100 ⌈(1 : ℝ) + 3.322 * Real.logb 10 (([(0 : ℝ), 1]).length : ℝ)⌉)).toNat :=
  computeHistogram_default_bin_count [0, 1] (by simp)
    (by norm_num [sortAsc, List.insertionSort, List.orderedInsert, List.getD])

/-- Counterexample to C8 as stated: on ten distinct values the
histogram has 20 bins, while the mode estimate's heuristic
`clamp(10, 200, ceil(1 + 3.322·log10 10))` gives 10 bins. -/
theorem computeHistogram_bin_heuristic_counterexample :
    (computeHistogram [0, 1, 2, 3, 4, 5, 6, 7, 8, 9] none).length = 20 ∧
      (max 10 (min 200 ⌈(1 : ℝ) + 3.322 * Real.logb 10 (10 : ℝ)⌉)).toNat = 10 ∧
      (20 : ℕ) ≠ 10 := by
  have hlog : Real.logb 10 (10 : ℝ) = 1 := Real.logb_self_eq_one (by norm_num)
  have hceil : ⌈(1 : ℝ) + 3.322 * Real.logb 10 (10 : ℝ)⌉ = 5 := by
    rw [hlog, Int.ceil_eq_iff] ; norm_num
  refine ⟨?_, by rw [hceil] ; decide, by norm_num⟩
  have hsort : sortAsc [(0 : ℝ), 1, 2, 3, 4, 5, 6, 7, 8, 9] =
      [(0 : ℝ), 1, 2, 3, 4, 5, 6, 7, 8, 9] := by
    norm_num [sortAsc, List.insertionSort, List.orderedInsert]
  have hlen := computeHistogram_length_default [0, 1, 2, 3, 4, 5, 6, 7, 8, 9]
    (by simp) (by norm_num [hsort, List.getD])
  rw [hlen]
  have : ((([(0 : ℝ), 1, 2, 3, 4, 5, 6, 7, 8, 9]).length : ℝ)) = (10 : ℝ) := by norm_num
  rw [this, hceil]
  decide

/-- C3: when `config.seed > 0`, the PRNG setup of `runSimulation`
re-initializes the entire sampler state (all four generator words, the
mode flag and the Box–Muller spare) from the seed alone, so two runs
with the same seed, inputs, outputs, deterministic evaluator and
iteration count — started from arbitrary prior sampler states — produce
identical results: every uniform draw, the sample matrices, the
statistics and the sensitivity rankings all coincide. -/
theorem seeded_runs_identical (sample : ℕ → SamplerState → ℝ × SamplerState)
    (eval : List ℝ → List ℝ) (inputs : List DistInput) (outputs : List SimOutput)
    (config : SimConfig) (cancelAt : Option ℕ) (st1 st2 : SamplerState)
    (hseed : 0 < config.seed) :
    simSetup config.seed st1 = simSetup config.seed st2 ∧
      runSimulation sample eval inputs outputs config cancelAt st1 =
        runSimulation sample eval inputs outputs config cancelAt st2 := by
  have hsetup : simSetup config.seed st1 = simSetup config.seed st2 := by
    simp [simSetup, if_pos hseed]
  refine ⟨hsetup, ?_⟩
  unfold runSimulation
  rw [hsetup]

/-- Witness for C3: a concrete seeded configuration and two distinct
prior sampler states. -/
theorem seeded_runs_identical_witness :
    simSetup (42 : ℕ) ⟨⟨1, 2, 3, 4⟩, false, true, 7⟩ =
      simSetup (42 : ℕ) ⟨⟨9, 9, 9, 9⟩, true, false, 0⟩ ∧
      runSimulation (fun _ st => (0, st)) id [⟨"a", "A"⟩] [⟨"o", "O"⟩]
          ⟨100, 42, 0.9, 0⟩ none ⟨⟨1, 2, 3, 4⟩, false, true, 7⟩ =
        runSimulation (fun _ st => (0, st)) id [⟨"a", "A"⟩] [⟨"o", "O"⟩]
          ⟨100, 42, 0.9, 0⟩ none ⟨⟨9, 9, 9, 9⟩, true, false, 0⟩ :=
  seeded_runs_identical (fun _ st => (0, st)) id [⟨"a", "A"⟩] [⟨"o", "O"⟩]
    ⟨100, 42, 0.9, 0⟩ none ⟨⟨1, 2, 3, 4⟩, false, true, 7⟩
    ⟨⟨9, 9, 9, 9⟩, true, false, 0⟩ (by norm_num)

/-- Helper: the population variance is nonnegative. -/
lemma popVar_nonneg (l : List ℝ) : 0 ≤ popVar l :=
  div_nonneg (Finset.sum_nonneg fun _ _ => sq_nonneg _) (Nat.cast_nonneg _)

/-- Helper: the code's standard deviation about the mean is the square
root of the population variance. -/
lemma stdDev_mean_eq (l : List ℝ) : stdDev l (mean l) = Real.sqrt (popVar l) := rfl

/-- Helper: the code's zero test on the standard deviation coincides
with the spec's zero-variance test. -/
lemma stdDev_eq_zero_iff (l : List ℝ) : stdDev l (mean l) = 0 ↔ popVar l = 0 := by
  rw [stdDev_mean_eq]
  exact Real.sqrt_eq_zero (popVar_nonneg l)

/-- Helper: the standardised regression coefficient is exactly the
spec's Pearson correlation coefficient. -/
lemma src_eq_pearsonSpec (x y : List ℝ) :
    standardisedRegressionCoefficient x y = pearsonSpec x y := by
  have hx := stdDev_eq_zero_iff x
  have hy := stdDev_eq_zero_iff y
  simp only [standardisedRegressionCoefficient, pearsonSpec]
  by_cases h : popVar x = 0 ∨ popVar y = 0
  · rw [if_pos (h.imp hx.mpr hy.mpr), if_pos h]
  · rw [if_neg (fun hz => h (hz.imp hx.mp hy.mp)), if_neg h]
    rfl

/-- Helper (Cauchy–Schwarz): the standardised regression coefficient of
two equal-length series lies in `[-1, 1]`. -/
lemma abs_src_le_one (x y : List ℝ) (h : y.length = x.length) :
    |standardisedRegressionCoefficient x y| ≤ 1 := by
  simp only [standardisedRegressionCoefficient]
  split_ifs with hs
  · simp
  · push_neg at hs
    obtain ⟨hsx, hsy⟩ := hs
    rw [stdDev_mean_eq] at hsx hsy
    have hvx : 0 ≤ popVar x := popVar_nonneg x
    have hvy : 0 ≤ popVar y := popVar_nonneg y
    have hvx' : 0 < popVar x :=
      lt_of_le_of_ne hvx (fun he => hsx (by rw [← he, Real.sqrt_zero]))
    have hvy' : 0 < popVar y :=
      lt_of_le_of_ne hvy (fun he => hsy (by rw [← he, Real.sqrt_zero]))
    have hn : x.length ≠ 0 := by
      intro h0
      rw [popVar, h0] at hvx'
      simp at hvx'
    have hnpos : (0 : ℝ) < (x.length : ℝ) := by
      exact_mod_cast Nat.pos_of_ne_zero hn
    set n := x.length with hdefn
    set mx := mean x with hdefmx
    set my := mean y with hdefmy
    set Sx := ∑ i ∈ Finset.range n, (x.getD i 0 - mx) ^ 2 with hdefSx
    set Sy := ∑ i ∈ Finset.range n, (y.getD i 0 - my) ^ 2 with hdefSy
    set Sxy := ∑ i ∈ Finset.range n, (x.getD i 0 - mx) * (y.getD i 0 - my) with hdefSxy
    have hSx : 0 ≤ Sx := Finset.sum_nonneg fun _ _ => sq_nonneg _
    have hSy : 0 ≤ Sy := Finset.sum_nonneg fun _ _ => sq_nonneg _
    have hpx : popVar x = Sx / n := by rw [popVar]
    have hpy : popVar y = Sy / n := by rw [popVar, h]
    have hcs : Sxy ^ 2 ≤ Sx * Sy :=
      Finset.sum_mul_sq_le_sq_mul_sq (Finset.range n)
        (fun i => x.getD i 0 - mx) (fun i => y.getD i 0 - my)
    have habs : |Sxy| ≤ Real.sqrt (Sx * Sy) := by
      rw [← Real.sqrt_sq_eq_abs]
      exact Real.sqrt_le_sqrt hcs
    have hstd : stdDev x mx * stdDev y my = Real.sqrt (Sx * Sy) / n := by
      rw [hdefmx, hdefmy, stdDev_mean_eq, stdDev_mean_eq, hpx, hpy,
        Real.sqrt_div hSx, Real.sqrt_div hSy, div_mul_div_comm,
        ← Real.sqrt_mul hSx, ← Real.sqrt_mul (Nat.cast_nonneg n),
        show ((n : ℝ) * n) = (n : ℝ) ^ 2 by ring, Real.sqrt_sq hnpos.le]
    have hposx : 0 < Sx := by
      have hq := hvx'
      rw [hpx] at hq
      have hm := mul_pos hq hnpos
      rwa [div_mul_cancel₀ _ (ne_of_gt hnpos)] at hm
    have hposy : 0 < Sy := by
      have hq := hvy'
      rw [hpy] at hq
      have hm := mul_pos hq hnpos
      rwa [div_mul_cancel₀ _ (ne_of_gt hnpos)] at hm
    have hSxSy : 0 < Real.sqrt (Sx * Sy) := Real.sqrt_pos.mpr (mul_pos hposx hposy)
    rw [hstd]
    have hsimp : Sxy / (n : ℝ) / (Real.sqrt (Sx * Sy) / (n : ℝ)) =
        Sxy / Real.sqrt (Sx * Sy) := by
      field_simp
    rw [hsimp, abs_div, abs_of_pos hSxSy]
    rw [div_le_one hSxSy]
    exact habs

/-- Helper: folding position updates over a group preserves the length
of the rank accumulator. -/
lemma foldl_set_length (v : ℝ) :
    ∀ (grp : List (ℕ × ℝ)) (acc : List ℝ),
      (grp.foldl (fun a q => a.set q.1 v) acc).length = acc.length := by
  intro grp
  induction grp with
  | nil => intro acc; rfl
  | cons p t ih => intro acc; rw [List.foldl_cons, ih, List.length_set]

/-- Helper: the rank-assignment walk preserves the length of the
accumulator. -/
lemma ranksGo_length :
    ∀ (fuel : ℕ) (l : List (ℕ × ℝ)) (i : ℕ) (acc : List ℝ),
      (ranksGo fuel l i acc).length = acc.length := by
  intro fuel
  induction fuel with
  | zero => intro l i acc; rfl
  | succ f ih =>
      intro l i acc
      cases l with
      | nil => rfl
      | cons p rest =>
          rw [ranksGo, ih, foldl_set_length]

/-- Helper: the rank transform preserves the series length. -/
lemma ranks_length (arr : List ℝ) : (ranks arr).length = arr.length := by
  rw [ranks, ranksGo_length, List.length_replicate]

/-- Helper: a column extracted from the sample matrix has the length of
the output series. -/
lemma column_length (m : List (List ℝ)) (n j : ℕ) : (column m n j).length = n := by
  rw [column, List.length_map, List.length_range]

/-- C6: `computeSensitivity` is empty exactly when there are fewer than
3 iterations or no inputs; otherwise it returns (up to the final sort,
i.e. as a permutation) one result per input whose coefficient is the
Pearson correlation coefficient between that input's sampled column and
the output series — population covariance over the product of the
population standard deviations, 0 when either variance is zero. -/
theorem computeSensitivity_matches_pearson (m : List (List ℝ)) (y : List ℝ)
    (names ids : List String) :
    (y.length < 3 ∨ names.length = 0 → computeSensitivity m y names ids = []) ∧
    (3 ≤ y.length → names.length ≠ 0 →
      (computeSensitivity m y names ids).Perm
        ((List.range names.length).map (fun j =>
          { inputId := ids.getD j ""
            inputName := names.getD j ""
            coefficient := pearsonSpec (column m y.length j) y
            rankCorrelation := spearmanRankCorrelation (column m y.length j) y
            : SensitivityResult }))) := by
  constructor
  · intro h
    rw [computeSensitivity, if_pos h]
  · intro h3 hk
    have hc : ¬(y.length < 3 ∨ names.length = 0) := by omega
    rw [computeSensitivity, if_neg hc]
    refine (List.perm_insertionSort sensLE _).trans ?_
    simp only [sensUnsorted, src_eq_pearsonSpec]
    exact List.Perm.refl _

/-- Witness for C6, exercising both the empty guard (too few
iterations) and the per-input Pearson characterization at a concrete
3-iteration run with one input. -/
theorem computeSensitivity_matches_pearson_witness :
    computeSensitivity [[0], [1]] [0, 1] ["a"] ["i"] = [] ∧
      (computeSensitivity [[0], [1], [2]] [0, 1, 2] ["a"] ["i"]).Perm
        ((List.range (["a"] : List String).length).map (fun j =>
          { inputId := (["i"] : List String).getD j ""
            inputName := (["a"] : List String).getD j ""
            coefficient := pearsonSpec (column [[0], [1], [2]] ([(0 : ℝ), 1, 2]).length j) [0, 1, 2]
            rankCorrelation :=
              spearmanRankCorrelation (column [[0], [1], [2]] ([(0 : ℝ), 1, 2]).length j) [0, 1, 2]
            : SensitivityResult })) :=
  ⟨(computeSensitivity_matches_pearson [[0], [1]] [0, 1] ["a"] ["i"]).1 (Or.inl (by norm_num)),
    (computeSensitivity_matches_pearson [[0], [1], [2]] [0, 1, 2] ["a"] ["i"]).2
      (by norm_num) (by norm_num)⟩

/-- Helper: filtering on an absolute-coefficient level commutes with
ordered insertion for the descending-absolute-coefficient order; the
inserted element lands in front of its own level. -/
lemma filter_orderedInsert_key (c : ℝ) (a : SensitivityResult) (l : List SensitivityResult) :
    (List.orderedInsert sensLE a l).filter (fun r => |r.coefficient| = c) =
      if |a.coefficient| = c then
        a :: l.filter (fun r => |r.coefficient| = c)
      else l.filter (fun r => |r.coefficient| = c) := by
  induction l with
  | nil =>
      by_cases ha : |a.coefficient| = c
      · simp [List.orderedInsert, List.filter, ha]
      · simp [List.orderedInsert, List.filter, ha]
  | cons b t ih =>
      rw [List.orderedInsert]
      by_cases hab : sensLE a b
      · rw [if_pos hab]
        by_cases ha : |a.coefficient| = c
        · simp [List.filter_cons, ha]
        · simp [List.filter_cons, ha]
      · rw [if_neg hab]
        by_cases ha : |a.coefficient| = c
        · have hb : ¬(|b.coefficient| = c) := by
            intro hbc
            exact hab (by rw [sensLE, hbc, ha])
          rw [if_pos ha]
          simp only [List.filter_cons, decide_eq_true_eq, if_neg hb, hb, ih, if_pos ha]
          simp [hb]
        · rw [if_neg ha]
          simp only [List.filter_cons, decide_eq_true_eq, ih, if_neg ha]

/-- Helper: insertion sort by descending absolute coefficient is
stable: the sublist at any absolute-coefficient level is unchanged. -/
lemma filter_insertionSort_key (c : ℝ) (l : List SensitivityResult) :
    (List.insertionSort sensLE l).filter (fun r => |r.coefficient| = c) =
      l.filter (fun r => |r.coefficient| = c) := by
  induction l with
  | nil => rfl
  | cons a t ih =>
      rw [List.insertionSort, filter_orderedInsert_key]
      by_cases ha : |a.coefficient| = c
      · rw [if_pos ha, ih]
        simp [List.filter_cons, ha]
      · rw [if_neg ha, ih]
        simp [List.filter_cons, ha]

/-- C7: the list returned by `computeSensitivity` is sorted by
descending absolute coefficient, and inputs with equal absolute
coefficients keep their relative input order: at every
absolute-coefficient level the returned sublist equals the sublist of
the unsorted per-input results, which are in input order. -/
theorem computeSensitivity_sorted_stable (m : List (List ℝ)) (y : List ℝ)
    (names ids : List String) :
    (computeSensitivity m y names ids).Pairwise sensLE ∧
    (∀ c : ℝ, 3 ≤ y.length → names.length ≠ 0 →
      (computeSensitivity m y names ids).filter (fun r => |r.coefficient| = c) =
        (sensUnsorted m y names ids).filter (fun r => |r.coefficient| = c)) := by
  constructor
  · rw [computeSensitivity]
    split_ifs
    · exact List.Pairwise.nil
    · exact List.sorted_insertionSort sensLE _
  · intro c h3 hk
    have hc : ¬(y.length < 3 ∨ names.length = 0) := by omega
    rw [computeSensitivity, if_neg hc, filter_insertionSort_key]

/-- Witness for C7's stability clause at a concrete input. -/
theorem computeSensitivity_sorted_stable_witness :
    (computeSensitivity [[0], [1], [2]] [0, 1, 2] ["a"] ["i"]).filter
        (fun r => |r.coefficient| = 1) =
      (sensUnsorted [[0], [1], [2]] [0, 1, 2] ["a"] ["i"]).filter
        (fun r => |r.coefficient| = 1) :=
  (computeSensitivity_sorted_stable [[0], [1], [2]] [0, 1, 2] ["a"] ["i"]).2 1
    (by norm_num) (by norm_num)

/-- C10: every result returned by `computeSensitivity` has both its
standardised regression coefficient and its Spearman rank correlation
in `[-1, 1]` (reading any position of the returned list with a default
record whose correlations are 0). -/
theorem computeSensitivity_coefficients_bounded (m : List (List ℝ)) (y : List ℝ)
    (names ids : List String) (j : ℕ) :
    -1 ≤ ((computeSensitivity m y names ids).getD j ⟨"", "", 0, 0⟩).coefficient ∧
    ((computeSensitivity m y names ids).getD j ⟨"", "", 0, 0⟩).coefficient ≤ 1 ∧
    -1 ≤ ((computeSensitivity m y names ids).getD j ⟨"", "", 0, 0⟩).rankCorrelation ∧
    ((computeSensitivity m y names ids).getD j ⟨"", "", 0, 0⟩).rankCorrelation ≤ 1 := by
  have hmem : ∀ r ∈ computeSensitivity m y names ids,
      |r.coefficient| ≤ 1 ∧ |r.rankCorrelation| ≤ 1 := by
    intro r hr
    by_cases hc : y.length < 3 ∨ names.length = 0
    · rw [computeSensitivity, if_pos hc] at hr
      cases hr
    · rw [computeSensitivity, if_neg hc] at hr
      have hmem2 := (List.perm_insertionSort sensLE _).mem_iff.mp hr
      rw [sensUnsorted, List.mem_map] at hmem2
      obtain ⟨jj, _, rfl⟩ := hmem2
      refine ⟨?_, ?_⟩
      · show |standardisedRegressionCoefficient (column m y.length jj) y| ≤ 1
        exact abs_src_le_one _ _ (by rw [column_length])
      · show |standardisedRegressionCoefficient (ranks (column m y.length jj)) (ranks y)| ≤ 1
        exact abs_src_le_one _ _ (by rw [ranks_length, ranks_length, column_length])
  by_cases hj : j < (computeSensitivity m y names ids).length
  · have hget := List.getD_eq_getElem (computeSensitivity m y names ids) ⟨"", "", 0, 0⟩ hj
    rw [hget]
    have hb := hmem _ (List.getElem_mem hj)
    exact ⟨(abs_le.mp hb.1).1, (abs_le.mp hb.1).2, (abs_le.mp hb.2).1, (abs_le.mp hb.2).2⟩
  · rw [List.getD_eq_default _ _ (le_of_not_lt hj)]
    norm_num

/-- Helper: one iteration appends one row to the sample matrix. -/
lemma doIter_inputSamples_length (sample : ℕ → SamplerState → ℝ × SamplerState)
    (eval : List ℝ → List ℝ) (nI nO : ℕ) (acc : RunAcc) :
    (doIter sample eval nI nO acc).inputSamples.length = acc.inputSamples.length + 1 := by
  simp [doIter]

/-- Helper: one iteration keeps the number of output series at `nO`. -/
lemma doIter_outputValues_length (sample : ℕ → SamplerState → ℝ × SamplerState)
    (eval : List ℝ → List ℝ) (nI nO : ℕ) (acc : RunAcc)
    (hlen : acc.outputValues.length = nO) :
    (doIter sample eval nI nO acc).outputValues.length = nO := by
  simp [doIter, hlen]

/-- Helper: one iteration appends one value to every output series. -/
lemma doIter_outputValues_getD (sample : ℕ → SamplerState → ℝ × SamplerState)
    (eval : List ℝ → List ℝ) (nI nO : ℕ) (acc : RunAcc) (i : ℕ) (hi : i < nO)
    (hlen : acc.outputValues.length = nO) :
    ((doIter sample eval nI nO acc).outputValues.getD i []).length =
      (acc.outputValues.getD i []).length + 1 := by
  have hi1 : i < (doIter sample eval nI nO acc).outputValues.length := by
    rw [doIter_outputValues_length sample eval nI nO acc hlen]
    exact hi
  have hi2 : i < acc.outputValues.length := by
    rw [hlen]; exact hi
  rw [List.getD_eq_getElem _ _ hi1, List.getD_eq_getElem _ _ hi2]
  simp only [doIter, List.getElem_zipWith, List.getElem_range]
  simp

/-- Helper: stepping an uncancelled iteration decreases the iteration
budget by one and moves the boundary forward by one. -/
lemma executedIters_step (cancelAt : Option ℕ) (r iter : ℕ)
    (h : checkCancel cancelAt iter = false) :
    executedIters cancelAt (r + 1) iter = executedIters cancelAt r (iter + 1) + 1 := by
  cases cancelAt with
  | none => simp [executedIters]
  | some k =>
      simp only [checkCancel, decide_eq_false_iff_not, not_le] at h
      simp only [executedIters]
      rw [show k - iter = (k - (iter + 1)) + 1 by omega, Nat.succ_min_succ]

/-- Helper: a cancelled boundary stops the loop with no iterations. -/
lemma executedIters_cancelled (k r iter : ℕ) (h : k ≤ iter) :
    executedIters (some k) r iter = 0 := by
  simp [executedIters, Nat.sub_eq_zero_of_le h]

/-- Helper: the loop runs exactly `executedIters` iterations, each
appending one row to the sample matrix and one value to each of the
`nO` output series. -/
lemma simLoop_lengths (sample : ℕ → SamplerState → ℝ × SamplerState)
    (eval : List ℝ → List ℝ) (nI nO : ℕ) (cancelAt : Option ℕ) :
    ∀ (r iter : ℕ) (acc : RunAcc), acc.outputValues.length = nO →
      (simLoop sample eval nI nO cancelAt r iter acc).inputSamples.length =
          acc.inputSamples.length + executedIters cancelAt r iter ∧
      (simLoop sample eval nI nO cancelAt r iter acc).outputValues.length = nO ∧
      (∀ i, i < nO →
        ((simLoop sample eval nI nO cancelAt r iter acc).outputValues.getD i []).length =
          (acc.outputValues.getD i []).length + executedIters cancelAt r iter) := by
  intro r
  induction r with
  | zero =>
      intro iter acc hlen
      refine ⟨?_, hlen, ?_⟩
      · cases cancelAt <;> simp [simLoop, executedIters]
      · intro i _
        cases cancelAt <;> simp [simLoop, executedIters]
  | succ rr ih =>
      intro iter acc hlen
      rw [simLoop]
      by_cases hc : checkCancel cancelAt iter = true
      · rw [if_pos hc]
        obtain ⟨k, rfl⟩ : ∃ k, cancelAt = some k := by
          cases cancelAt with
          | none => simp [checkCancel] at hc
          | some k => exact ⟨k, rfl⟩
        simp only [checkCancel, decide_eq_true_eq] at hc
        rw [executedIters_cancelled _ _ _ hc]
        exact ⟨by omega, hlen, fun i _ => by omega⟩
      · rw [if_neg hc]
        have hc' : checkCancel cancelAt iter = false := by
          simpa using hc
        have hlen' : (doIter sample eval nI nO acc).outputValues.length = nO :=
          doIter_outputValues_length sample eval nI nO acc hlen
        obtain ⟨ih1, ih2, ih3⟩ := ih (iter + 1) (doIter sample eval nI nO acc) hlen'
        refine ⟨?_, ih2, ?_⟩
        · rw [ih1, doIter_inputSamples_length, executedIters_step cancelAt rr iter hc']
          omega
        · intro i hi
          rw [ih3 i hi, doIter_outputValues_getD sample eval nI nO acc i hi hlen,
            executedIters_step cancelAt rr iter hc']
          omega

/-- Helper: with both preconditions met, `runSimulation` returns
results whose sample matrix and per-output series lengths equal the
number of executed iterations, and whose final status reflects the
cancellation flag at the end of the run. -/
lemma runSimulation_shape (sample : ℕ → SamplerState → ℝ × SamplerState)
    (eval : List ℝ → List ℝ) (inputs : List DistInput) (outputs : List SimOutput)
    (config : SimConfig) (cancelAt : Option ℕ) (st0 : SamplerState)
    (hi : inputs.length ≠ 0) (ho : outputs.length ≠ 0) :
    runOk (runSimulation sample eval inputs outputs config cancelAt st0) = true ∧
    okSampleCount (runSimulation sample eval inputs outputs config cancelAt st0) =
      executedIters cancelAt config.iterations 0 ∧
    okValueCounts (runSimulation sample eval inputs outputs config cancelAt st0) =
      List.replicate outputs.length (executedIters cancelAt config.iterations 0) ∧
    okStatus (runSimulation sample eval inputs outputs config cancelAt st0) =
      (if finalCancelled cancelAt config.iterations then "cancelled" else "completed") := by
  have hinit : ((outputs.map (fun _ => ([] : List ℝ))) : List (List ℝ)).length =
      outputs.length := by
    simp
  obtain ⟨hlen1, hlen2, hlen3⟩ := simLoop_lengths sample eval inputs.length outputs.length
    cancelAt config.iterations 0
    ⟨simSetup config.seed st0, [], outputs.map (fun _ => [])⟩ hinit
  simp only [runSimulation, if_neg hi, if_neg ho]
  refine ⟨rfl, ?_, ?_, rfl⟩
  · simpa [okSampleCount] using hlen1
  · simp only [okValueCounts]
    apply List.ext_getElem
    · simp [List.length_zipWith]
    · intro i h1 h2
      have hio : i < outputs.length := by
        simpa [List.length_zipWith] using h1
      have hv := hlen3 i hio
      have hinit_i : ((outputs.map (fun _ => ([] : List ℝ))).getD i []).length = 0 := by
        rw [List.getD_eq_getElem _ _ (by simpa using hio)]
        simp
      rw [hinit_i] at hv
      simp only [List.getElem_map, List.getElem_zipWith, List.getElem_range,
        List.getElem_replicate]
      rw [hv]
      omega

/-- C1 (amended): `runSimulation` validates only the registration
preconditions (at least one input and one output); `config.iterations`
is not range-checked by the engine, so a value outside `[100, 50000]`
starts the run anyway, draws that many rows and produces completed
results (clamping is the caller's/task-pane's responsibility). -/
theorem runSimulation_runs_without_iteration_validation
    (sample : ℕ → SamplerState → ℝ × SamplerState) (eval : List ℝ → List ℝ)
    (inputs : List DistInput) (outputs : List SimOutput) (config : SimConfig)
    (st0 : SamplerState) (hi : inputs.length ≠ 0) (ho : outputs.length ≠ 0) :
    runOk (runSimulation sample eval inputs outputs config none st0) = true ∧
    okSampleCount (runSimulation sample eval inputs outputs config none st0) =
      config.iterations ∧
    okValueCounts (runSimulation sample eval inputs outputs config none st0) =
      List.replicate outputs.length config.iterations ∧
    okStatus (runSimulation sample eval inputs outputs config none st0) = "completed" := by
  have h := runSimulation_shape sample eval inputs outputs config none st0 hi ho
  simpa [executedIters, finalCancelled] using h

/-- Witness for C1's amended claim at a concrete out-of-range
configuration (5 iterations). -/
theorem runSimulation_runs_without_iteration_validation_witness :
    runOk (runSimulation (fun _ st => (0, st)) id [⟨"i1", "I"⟩] [⟨"o1", "O"⟩]
        ⟨5, 1, 0.9, 0⟩ none ⟨⟨0, 0, 0, 0⟩, false, false, 0⟩) = true ∧
    okSampleCount (runSimulation (fun _ st => (0, st)) id [⟨"i1", "I"⟩] [⟨"o1", "O"⟩]
        ⟨5, 1, 0.9, 0⟩ none ⟨⟨0, 0, 0, 0⟩, false, false, 0⟩) = (⟨5, 1, 0.9, 0⟩ : SimConfig).iterations ∧
    okValueCounts (runSimulation (fun _ st => (0, st)) id [⟨"i1", "I"⟩] [⟨"o1", "O"⟩]
        ⟨5, 1, 0.9, 0⟩ none ⟨⟨0, 0, 0, 0⟩, false, false, 0⟩) =
      List.replicate ([(⟨"o1", "O"⟩ : SimOutput)]).length (⟨5, 1, 0.9, 0⟩ : SimConfig).iterations ∧
    okStatus (runSimulation (fun _ st => (0, st)) id [⟨"i1", "I"⟩] [⟨"o1", "O"⟩]
        ⟨5, 1, 0.9, 0⟩ none ⟨⟨0, 0, 0, 0⟩, false, false, 0⟩) = "completed" :=
  runSimulation_runs_without_iteration_validation (fun _ st => (0, st)) id
    [⟨"i1", "I"⟩] [⟨"o1", "O"⟩] ⟨5, 1, 0.9, 0⟩ ⟨⟨0, 0, 0, 0⟩, false, false, 0⟩
    (by simp) (by simp)

/-- Counterexample to C1 as stated: invoked with `iterations = 5`,
outside `[100, 50000]`, the engine does not report the invalid
configuration — the run starts, draws 5 sample rows and returns
completed results. -/
theorem runSimulation_out_of_range_counterexample :
    ¬(100 ≤ (⟨5, 1, 0.9, 0⟩ : SimConfig).iterations) ∧
    runOk (runSimulation (fun _ st => (0, st)) id [⟨"i1", "I"⟩] [⟨"o1", "O"⟩]
        ⟨5, 1, 0.9, 0⟩ none ⟨⟨0, 0, 0, 0⟩, false, false, 0⟩) = true ∧
    okSampleCount (runSimulation (fun _ st => (0, st)) id [⟨"i1", "I"⟩] [⟨"o1", "O"⟩]
        ⟨5, 1, 0.9, 0⟩ none ⟨⟨0, 0, 0, 0⟩, false, false, 0⟩) = 5 ∧
    okStatus (runSimulation (fun _ st => (0, st)) id [⟨"i1", "I"⟩] [⟨"o1", "O"⟩]
        ⟨5, 1, 0.9, 0⟩ none ⟨⟨0, 0, 0, 0⟩, false, false, 0⟩) = "completed" := by
  have h := runSimulation_shape (fun _ st => (0, st)) id [⟨"i1", "I"⟩] [⟨"o1", "O"⟩]
    ⟨5, 1, 0.9, 0⟩ none ⟨⟨0, 0, 0, 0⟩, false, false, 0⟩ (by simp) (by simp)
  refine ⟨by norm_num, h.1, ?_, ?_⟩
  · simpa [executedIters] using h.2.1
  · simpa [finalCancelled] using h.2.2.2

/-- C2: cancelling after iteration `k` has completed (`0 < k <
config.iterations`) and before the next begins stops the run at the
next iteration boundary and returns partial results: the sample matrix
and every output's value series have length exactly `k`, and the final
reported status is `"cancelled"`, not an error. -/
theorem cancellation_yields_partial_results
    (sample : ℕ → SamplerState → ℝ × SamplerState) (eval : List ℝ → List ℝ)
    (inputs : List DistInput) (outputs : List SimOutput) (config : SimConfig)
    (st0 : SamplerState) (k : ℕ) (hi : inputs.length ≠ 0) (ho : outputs.length ≠ 0)
    (_hk0 : 0 < k) (hk : k < config.iterations) :
    runOk (runSimulation sample eval inputs outputs config (some k) st0) = true ∧
    okSampleCount (runSimulation sample eval inputs outputs config (some k) st0) = k ∧
    okValueCounts (runSimulation sample eval inputs outputs config (some k) st0) =
      List.replicate outputs.length k ∧
    okStatus (runSimulation sample eval inputs outputs config (some k) st0) = "cancelled" := by
  have h := runSimulation_shape sample eval inputs outputs config (some k) st0 hi ho
  have hex : executedIters (some k) config.iterations 0 = k := by
    simp only [executedIters, Nat.sub_zero]
    omega
  have hfc : finalCancelled (some k) config.iterations = true := by
    simp only [finalCancelled, decide_eq_true_eq]
    omega
  refine ⟨h.1, ?_, ?_, ?_⟩
  · rw [h.2.1, hex]
  · rw [h.2.2.1, hex]
  · rw [h.2.2.2, hfc]
    simp

/-- Witness for C2 at a concrete run: 100 iterations requested,
cancelled after the 7th. -/
theorem cancellation_yields_partial_results_witness :
    runOk (runSimulation (fun _ st => (0, st)) id [⟨"i1", "I"⟩] [⟨"o1", "O"⟩]
        ⟨100, 1, 0.9, 0⟩ (some 7) ⟨⟨0, 0, 0, 0⟩, false, false, 0⟩) = true ∧
    okSampleCount (runSimulation (fun _ st => (0, st)) id [⟨"i1", "I"⟩] [⟨"o1", "O"⟩]
        ⟨100, 1, 0.9, 0⟩ (some 7) ⟨⟨0, 0, 0, 0⟩, false, false, 0⟩) = 7 ∧
    okValueCounts (runSimulation (fun _ st => (0, st)) id [⟨"i1", "I"⟩] [⟨"o1", "O"⟩]
        ⟨100, 1, 0.9, 0⟩ (some 7) ⟨⟨0, 0, 0, 0⟩, false, false, 0⟩) =
      List.replicate ([(⟨"o1", "O"⟩ : SimOutput)]).length 7 ∧
    okStatus (runSimulation (fun _ st => (0, st)) id [⟨"i1", "I"⟩] [⟨"o1", "O"⟩]
        ⟨100, 1, 0.9, 0⟩ (some 7) ⟨⟨0, 0, 0, 0⟩, false, false, 0⟩) = "cancelled" :=
  cancellation_yields_partial_results (fun _ st => (0, st)) id
    [⟨"i1", "I"⟩] [⟨"o1", "O"⟩] ⟨100, 1, 0.9, 0⟩ ⟨⟨0, 0, 0, 0⟩, false, false, 0⟩ 7
    (by simp) (by simp) (by norm_num) (by norm_num)

end Theorems
